import Mathlib

/-!
Verification of the `pcalc` command-line calculator (`src/pcalc.py`) against
its natural-language specification.

Shallow embedding conventions:
* Python floats are modelled as rationals (`ℚ`).  Every concrete value
  appearing in the verified claims (integers, halves, ...) is represented
  exactly by a binary64 float, so rational arithmetic agrees with the float
  arithmetic the program performs on those inputs.  Binary rounding of
  inexact results is outside the model.
* Python ints are `ℤ`, Python exceptions are explicit error values, the
  lazy value stream becomes explicit incremental list processing.
-/

deriving instance DecidableEq for Except

namespace Pcalc

/-- A Python runtime value as it can appear in this program: an `int`, a
`float`, a `bool`, `None`, one of the callables placed in the evaluation
scope, or the `math` module object. -/
inductive PyVal where
  | vInt (n : ℤ)
  | vFloat (q : ℚ)
  | vBool (b : Bool)
  | vNone
  | vFunc (name : String)
  | vModule (name : String)
deriving DecidableEq, Repr

/-- The numeric content of a Python value, for arithmetic.  In Python,
`bool` is a subclass of `int` with `True == 1` and `False == 0`.  The
non-numeric constructors never reach arithmetic in the verified claims
(Python would raise `TypeError`; the evaluator below raises it before
consulting this function). -/
def PyVal.toQ : PyVal → ℚ
  | .vInt n => (n : ℚ)
  | .vFloat q => q
  | .vBool b => if b then 1 else 0
  | _ => 0

/-- Model of `isinstance(result, numeric_types)` from `src/pcalc.py`, where
`numeric_types = (int, float)` on Python 3.  Python's `bool` is a subclass
of `int`, so boolean results pass this check. -/
def isNumericInstance : PyVal → Bool
  | .vInt _ => true
  | .vFloat _ => true
  | .vBool _ => true
  | _ => false

/-- Python `int(x)` on a number: truncation toward zero. -/
def pyTrunc (q : ℚ) : ℤ := if 0 ≤ q then ⌊q⌋ else ⌈q⌉

/-- Python's modulo operator `a % b` (`operator.mod`): remainder with the
sign of the divisor, `a - b * floor(a / b)`.  For `b = 0` Python raises
`ZeroDivisionError`; no verified claim divides by zero, and the evaluator
models that exception explicitly where it matters. -/
def pyMod (a b : ℚ) : ℚ := a - b * ⌊a / b⌋

/-- Python `math.fmod(a, b)`: C-library remainder with the sign of the
dividend, `a - b * trunc(a / b)`. -/
def pyFmod (a b : ℚ) : ℚ := a - b * pyTrunc (a / b)

/-- Python `pow`/`**` on the values this program feeds it.  Modelled
exactly for integral exponents (`a ** n` is `a ^ n`, with negative `n`
giving the reciprocal, as Python's float power does); a non-integral
exponent generally leaves ℚ (Python would compute an irrational float) and
is outside the model — no verified claim evaluates one. -/
def pyPow (a e : ℚ) : ℚ := if e.den = 1 then a ^ e.num else 0

/-- Round half to even on ℚ: Python 3's `round` tie-breaking rule. -/
def roundHalfEven (q : ℚ) : ℤ :=
  if Int.fract q < 1/2 then ⌊q⌋
  else if 1/2 < Int.fract q then ⌊q⌋ + 1
  else if Even ⌊q⌋ then ⌊q⌋ else ⌊q⌋ + 1

/-- Python `round(x, p)` for `p ≠ 0`, modelled decimally: scale by
`10 ^ p`, round half to even, scale back.  (CPython rounds the binary64
value; on the decimal inputs of this development the two agree.) -/
def pyRoundTo (q : ℚ) (p : ℤ) : ℚ :=
  ((roundHalfEven (q * (10 : ℚ) ^ p) : ℚ)) / (10 : ℚ) ^ p

/-- All failures the program reports go through `click.ClickException`,
which carries just a message string. -/
structure ClickException where
  message : String
deriving DecidableEq, Repr

/-- The error raised by `_values` when no usable line arrives on stdin
(the spec's `EmptyInputError`). -/
def emptyInputError : ClickException := ⟨"stdin didn\x27t get any data."⟩

/-- The error raised by `_cast_float` on a non-numeric line (the spec's
`ParseError`); it carries the offending raw text. -/
def parseError (raw : String) : ClickException :=
  ⟨"Could not cast value to float: " ++ raw⟩

/-- The error raised by `mode` when several values tie for most frequent
(the spec's `AmbiguousModeError`). -/
def ambiguousModeError : ClickException :=
  ⟨"Multiple mode\x27s - unsure how to format."⟩

/-- Model of `functools.reduce` on an empty iterable without an initializer raises
`TypeError`; `_values` guarantees a non-empty stream, so this is
unreachable in the program.  Recorded as an error value so `reduce1` is
total. -/
def reduceEmptyError : ClickException :=
  ⟨"reduce() of empty iterable with no initial value"⟩

/-- Numeric value of a digit string (most significant first). -/
def digitsVal (cs : List Char) : ℕ :=
  cs.foldl (fun acc c => acc * 10 + (c.toNat - '0'.toNat)) 0

/-- Split a character list into its leading run of decimal digits and the
rest. -/
def takeDigits (cs : List Char) : List Char × List Char :=
  (cs.takeWhile Char.isDigit, cs.dropWhile Char.isDigit)

/-- Optional leading sign; returns `true` when negative. -/
def parseSign : List Char → Bool × List Char
  | '+' :: cs => (false, cs)
  | '-' :: cs => (true, cs)
  | cs => (false, cs)

/-- Optional exponent suffix `e`/`E` followed by an optionally signed
digit run; the whole remainder must be consumed. -/
def parseExponent : List Char → Option ℤ
  | [] => some 0
  | c :: cs =>
    if c = 'e' ∨ c = 'E' then
      let (neg, cs1) := parseSign cs
      let (ds, rest) := takeDigits cs1
      if ds.isEmpty ∨ ¬rest.isEmpty then none
      else some (if neg then -(digitsVal ds : ℤ) else (digitsVal ds : ℤ))
    else none

/-- Digits with an optional decimal point: `123`, `1.5`, `.5`, `1.`. -/
def parseMantissa (cs : List Char) : Option (ℚ × List Char) :=
  let (ip, r1) := takeDigits cs
  match r1 with
  | '.' :: r2 =>
    let (fp, r3) := takeDigits r2
    if ip.isEmpty ∧ fp.isEmpty then none
    else some ((digitsVal ip : ℚ) + (digitsVal fp : ℚ) / (10 : ℚ) ^ fp.length, r3)
  | _ => if ip.isEmpty then none else some ((digitsVal ip : ℚ), r1)

/-- Python `float(s)` on decimal literals: surrounding whitespace ignored,
optional sign, digits with optional point, optional exponent.  (`inf`,
`nan` and underscore digit separators are accepted by CPython but appear
in no claim and are not modelled.)  The result is the exact decimal value;
binary64 rounding is outside the model. -/
def parsePyFloat (s : String) : Option ℚ :=
  let cs := s.trim.toList
  let (neg, cs1) := parseSign cs
  match parseMantissa cs1 with
  | none => none
  | some (m, rest) =>
    match parseExponent rest with
    | none => none
    | some e => some ((if neg then -m else m) * (10 : ℚ) ^ e)

/-- Model of `_cast_float` from `src/pcalc.py`: `float(v)`, with `ValueError`
translated to a `ClickException` carrying the offending text.  (In the
program the text still carries the physical line's trailing newline;
lines are modelled without their newline.) -/
def _cast_float (line : String) : Except ClickException ℚ :=
  match parsePyFloat line with
  | some q => .ok q
  | none => .error (parseError line)

/-- The two filters at the top of `_values`: keep the lines whose
`strip()` is non-empty (the second `filter(None, ...)` only re-checks
truthiness of the already non-blank raw lines).  `String.trim` plays
Python's `str.strip()`; both remove the ASCII whitespace appearing in any
claim. -/
def surviving (lines : List String) : List String :=
  lines.filter (fun l => l.trim ≠ "")

/-- Casting every surviving line in order, stopping at the first failure
(as the lazy `map(_cast_float, stream)` does when it is consumed). -/
def castAll : List String → Except ClickException (List ℚ)
  | [] => .ok []
  | l :: ls =>
    match _cast_float l with
    | .error e => .error e
    | .ok v =>
      match castAll ls with
      | .error e => .error e
      | .ok vs => .ok (v :: vs)

/-- Model of `_values` from `src/pcalc.py` for a consumer that exhausts the
stream: blank lines dropped, every survivor cast with `_cast_float`
(first failure wins, as in the lazy pipeline), and an eager emptiness
check that fails with `emptyInputError` before anything is emitted. -/
def _values (lines : List String) : Except ClickException (List ℚ) :=
  match surviving lines with
  | [] => .error emptyInputError
  | ls => castAll ls

/-- One-by-one processing of the surviving lines by a streaming command:
each parsed value is transformed and echoed before the next line is
parsed, so a parse failure keeps the outputs already emitted and stops
the run. -/
def streamGo (f : ℚ → PyVal) : List String → List PyVal × Option ClickException
  | [] => ([], none)
  | l :: ls =>
    match _cast_float l with
    | .error e => ([], some e)
    | .ok v =>
      let r := streamGo f ls
      (f v :: r.1, r.2)

/-- A streaming command (`for v in _values(): _echo(f(v))`): emptiness is
detected first (the peek inside `_values`), then lines are processed
incrementally. -/
def runStream (f : ℚ → PyVal) (lines : List String) : List PyVal × Option ClickException :=
  match surviving lines with
  | [] => ([], some emptyInputError)
  | ls => streamGo f ls

/-- A reducing command (`_echo(g(_values()))`): nothing is echoed until
the whole stream has been consumed, so any failure yields no output at
all. -/
def runReduce (g : List ℚ → Except ClickException PyVal) (lines : List String) :
    List PyVal × Option ClickException :=
  match _values lines with
  | .error e => ([], some e)
  | .ok vs =>
    match g vs with
    | .error e => ([], some e)
    | .ok v => ([v], none)

/-- Model of `functools.reduce(f, values)` with no initializer: the accumulator
starts at the first element; a singleton list is returned unchanged. -/
def reduce1 (f : ℚ → ℚ → ℚ) : List ℚ → Except ClickException ℚ
  | [] => .error reduceEmptyError
  | x :: xs => .ok (xs.foldl f x)

/-- Model of `radd` / `sum`: `reduce(operator.add, _values())`. -/
def radd_val (xs : List ℚ) : Except ClickException PyVal :=
  (reduce1 (· + ·) xs).map .vFloat

/-- Model of `rsub`: `reduce(operator.sub, _values())`. -/
def rsub_val (xs : List ℚ) : Except ClickException PyVal :=
  (reduce1 (· - ·) xs).map .vFloat

/-- Model of `rmul`: `reduce(operator.mul, _values())`. -/
def rmul_val (xs : List ℚ) : Except ClickException PyVal :=
  (reduce1 (· * ·) xs).map .vFloat

/-- Model of `rdiv`: `reduce(operator.truediv, _values())`.  A zero divisor makes
Python raise `ZeroDivisionError`; ℚ division by zero returns 0 instead,
and no claim exercises it. -/
def rdiv_val (xs : List ℚ) : Except ClickException PyVal :=
  (reduce1 (· / ·) xs).map .vFloat

/-- Model of `rpow`: `reduce(pow, _values())`. -/
def rpow_val (xs : List ℚ) : Except ClickException PyVal :=
  (reduce1 pyPow xs).map .vFloat

/-- Model of `min(_values())`. -/
def min_val (xs : List ℚ) : Except ClickException PyVal :=
  (reduce1 min xs).map .vFloat

/-- Model of `max(_values())`. -/
def max_val (xs : List ℚ) : Except ClickException PyVal :=
  (reduce1 max xs).map .vFloat

/-- Model of `mean`: `values = tuple(_values()); sum(values) / len(values)`.  The
empty case would be Python's `ZeroDivisionError`; `_values` makes it
unreachable. -/
def mean_val : List ℚ → Except ClickException PyVal
  | [] => .error ⟨"division by zero"⟩
  | x :: xs => .ok (.vFloat ((x :: xs).sum / ((x :: xs).length : ℚ)))

/-- The function built by the `_cb_fmod` click callback: `math.fmod` when
the `--fmod` flag is set, `operator.mod` otherwise, and in either case the
result is passed through `int()`: `lambda a, b: int(func(a, b))`. -/
def _cb_fmod (fmodFlag : Bool) (a b : PyVal) : PyVal :=
  .vInt (pyTrunc ((if fmodFlag then pyFmod else pyMod) a.toQ b.toQ))

/-- The per-value function of the `mod` command: `mod_func(v, denominator)`
with `mod_func` produced by `_cb_fmod`. -/
def mod_streamFn (fmodFlag : Bool) (denominator v : ℚ) : PyVal :=
  _cb_fmod fmodFlag (.vFloat v) (.vFloat denominator)

/-- Model of `rmod`: `reduce(mod_func, _values())`.  The fold runs over Python
values: the initial accumulator is the first input float, every applied
step returns an `int`. -/
def rmod_val (fmodFlag : Bool) : List ℚ → Except ClickException PyVal
  | [] => .error reduceEmptyError
  | x :: xs => .ok ((xs.map PyVal.vFloat).foldl (_cb_fmod fmodFlag) (.vFloat x))

/-- Model of `median` from `src/pcalc.py`: sort ascending; odd count takes the
middle element, even count sums the length-2 slice around the middle and
divides by 2.  (`sorted` is an ascending stable sort, as is
`List.mergeSort`.) -/
def median_val (xs : List ℚ) : Except ClickException PyVal :=
  let values := xs.mergeSort (fun a b => decide (a ≤ b))
  if values.length % 2 = 1 then
    .ok (.vFloat (values.getD ((values.length - 1) / 2) 0))
  else
    let stop := values.length / 2 + 1
    let start := stop - 2
    let middle := (values.drop start).take (stop - start)
    .ok (.vFloat (middle.sum / 2))

/-- The keys of `collections.Counter(xs)` in first-seen order
(`List.dedup` keeps last occurrences, so dedup the reversal). -/
def firstSeenKeys (xs : List ℚ) : List ℚ := xs.reverse.dedup.reverse

/-- Model of `collections.Counter(xs)` as an association list: each distinct value
with its multiplicity, keyed in first-seen order. -/
def counter (xs : List ℚ) : List (ℚ × ℕ) :=
  (firstSeenKeys xs).map (fun v => (v, xs.count v))

/-- Comparison used to model `Counter.most_common`: descending by count. -/
def byCountDesc (a b : ℚ × ℕ) : Bool := decide (b.2 ≤ a.2)

/-- Model of `Counter.most_common(n)`: the `n` entries with the largest counts,
largest first; ties keep first-seen order (`heapq.nlargest` matches a
stable descending sort). -/
def most_common (xs : List ℚ) (n : ℕ) : List (ℚ × ℕ) :=
  ((counter xs).mergeSort byCountDesc).take n

/-- Model of `mode` from `src/pcalc.py`: error out when the counter has more than
one entry and the two most common entries share a count, otherwise echo
the most common value.  (`most_common(1)[0][0]` on an empty counter would
be Python's `IndexError`; `_values` makes it unreachable.) -/
def mode_val (xs : List ℚ) : Except ClickException PyVal :=
  let count := counter xs
  if 1 < count.length ∧ ((most_common xs 2).map Prod.snd).dedup.length = 1 then
    .error ambiguousModeError
  else
    match most_common xs 1 with
    | [] => .error ⟨"list index out of range"⟩
    | p :: _ => .ok (.vFloat p.1)

/-- Python substring test `pat in s`, on character lists: `pat` occurs
contiguously inside `s`. -/
def strContains (s pat : List Char) : Bool := decide (pat <:+: s)

/-- Python `s.lower()` as a character list (the messages involved are
ASCII). -/
def pyLower (s : String) : List Char := s.toList.map Char.toLower

/-- The Python exceptions the expression evaluator can raise. -/
inductive PyExc where
  | nameError (msg : String)
  | typeError (msg : String)
  | zeroDivisionError (msg : String)
deriving DecidableEq, Repr

/-- Model of `str(e)` of an exception: its message. -/
def PyExc.msg : PyExc → String
  | .nameError m => m
  | .typeError m => m
  | .zeroDivisionError m => m

/-- Model of `isinstance(e, (TypeError, NameError))`. -/
def PyExc.isTypeOrNameError : PyExc → Bool
  | .nameError _ => true
  | .typeError _ => true
  | .zeroDivisionError _ => false

/-- The type name Python uses in error messages for each value. -/
def pyTypeShort : PyVal → String
  | .vInt _ => "int"
  | .vFloat _ => "float"
  | .vBool _ => "bool"
  | .vNone => "NoneType"
  | .vFunc _ => "builtin_function_or_method"
  | .vModule _ => "module"

/-- Model of `str(type(result))`, as interpolated into the non-numeric-result
message. -/
def pyTypeName (v : PyVal) : String := "<class \x27" ++ pyTypeShort v ++ "\x27>"

/-- Model of `format`-style rendering of the values that can reach the
non-numeric-result message (numeric values never reach it). -/
def pyShow : PyVal → String
  | .vInt n => toString n
  | .vFloat _ => "<float>"
  | .vBool b => if b then "True" else "False"
  | .vNone => "None"
  | .vFunc n => "<built-in function " ++ n ++ ">"
  | .vModule n => "<module \x27" ++ n ++ "\x27>"

/-- The binary operators of the embedded expression grammar. -/
inductive BinOp where
  | add | sub | mul | div | mod | pow | lt | le | gt | ge
deriving DecidableEq, Repr

/-- A user-supplied Python expression, restricted to the arithmetic
fragment the program intends: literals, names, binary arithmetic and
comparisons, calls, and subscripting (the latter so that the
`object is not subscriptable` translation in `_evaluate` is exercised). -/
inductive Expr where
  | lit (v : PyVal)
  | name (s : String)
  | bin (o : BinOp) (l r : Expr)
  | call (f : Expr) (args : List Expr)
  | subscript (obj idx : Expr)
deriving Repr

/-- Whether a value is a `float` (drives Python numeric result types). -/
def isFloaty : PyVal → Bool
  | .vFloat _ => true
  | _ => false

/-- The symbol Python prints for an operator in `unsupported operand`
messages. -/
def BinOp.symbol : BinOp → String
  | .add => "+"
  | .sub => "-"
  | .mul => "*"
  | .div => "/"
  | .mod => "%"
  | .pow => "**"
  | .lt => "<"
  | .le => "<="
  | .gt => ">"
  | .ge => ">="

/-- Python binary arithmetic / comparison on the values of this model:
`bool` participates as an `int`; a `float` operand makes the result a
`float`; `/` always yields a `float`; division or modulo by zero raises
`ZeroDivisionError`; non-numeric operands raise `TypeError`. -/
def binOpEval (o : BinOp) (a b : PyVal) : Except PyExc PyVal :=
  if isNumericInstance a && isNumericInstance b then
    let x := a.toQ
    let y := b.toQ
    let fl := isFloaty a || isFloaty b
    match o with
    | .lt => .ok (.vBool (decide (x < y)))
    | .le => .ok (.vBool (decide (x ≤ y)))
    | .gt => .ok (.vBool (decide (y < x)))
    | .ge => .ok (.vBool (decide (y ≤ x)))
    | .add => .ok (if fl then .vFloat (x + y) else .vInt (pyTrunc (x + y)))
    | .sub => .ok (if fl then .vFloat (x - y) else .vInt (pyTrunc (x - y)))
    | .mul => .ok (if fl then .vFloat (x * y) else .vInt (pyTrunc (x * y)))
    | .div =>
      if y = 0 then
        .error (.zeroDivisionError
          (if fl then "float division by zero" else "division by zero"))
      else .ok (.vFloat (x / y))
    | .mod =>
      if y = 0 then
        .error (.zeroDivisionError
          (if fl then "float modulo" else "integer division or modulo by zero"))
      else .ok (if fl then .vFloat (pyMod x y) else .vInt (pyTrunc (pyMod x y)))
    | .pow =>
      .ok (if fl || decide (y < 0) then .vFloat (pyPow x y) else .vInt (pyTrunc (pyPow x y)))
  else
    match o with
    | .lt | .le | .gt | .ge =>
      .error (.typeError ("\x27" ++ o.symbol ++ "\x27 not supported between instances of \x27"
        ++ pyTypeShort a ++ "\x27 and \x27" ++ pyTypeShort b ++ "\x27"))
    | _ =>
      .error (.typeError ("unsupported operand type(s) for " ++ o.symbol ++ ": \x27"
        ++ pyTypeShort a ++ "\x27 and \x27" ++ pyTypeShort b ++ "\x27"))

/-- Application of one of the scope's callables to evaluated arguments.
`abs`, `add`/`sub`/`mul`/`div`/`mod`/`pow` are the `operator`-module
functions, `ceil`/`floor`/`fmod` come from `math`, `round` is the
builtin.  Wrong arity or non-numeric arguments raise `TypeError`. -/
def applyFunc (f : String) (args : List PyVal) : Except PyExc PyVal :=
  match f, args with
  | "abs", [a] =>
    if isNumericInstance a then
      .ok (if isFloaty a then .vFloat |a.toQ| else .vInt (pyTrunc |a.toQ|))
    else .error (.typeError ("bad operand type for abs(): \x27" ++ pyTypeShort a ++ "\x27"))
  | "add", [a, b] => binOpEval .add a b
  | "sub", [a, b] => binOpEval .sub a b
  | "mul", [a, b] => binOpEval .mul a b
  | "div", [a, b] => binOpEval .div a b
  | "mod", [a, b] => binOpEval .mod a b
  | "pow", [a, b] => binOpEval .pow a b
  | "ceil", [a] =>
    if isNumericInstance a then .ok (.vInt ⌈a.toQ⌉)
    else .error (.typeError ("must be real number, not " ++ pyTypeShort a))
  | "floor", [a] =>
    if isNumericInstance a then .ok (.vInt ⌊a.toQ⌋)
    else .error (.typeError ("must be real number, not " ++ pyTypeShort a))
  | "fmod", [a, b] =>
    if isNumericInstance a && isNumericInstance b then
      if b.toQ = 0 then .error (.zeroDivisionError "math domain error")
      else .ok (.vFloat (pyFmod a.toQ b.toQ))
    else .error (.typeError "must be real number, not NoneType")
  | "round", [a] =>
    if isNumericInstance a then .ok (.vInt (roundHalfEven a.toQ))
    else .error (.typeError ("type " ++ pyTypeShort a ++ " doesn\x27t define __round__ method"))
  | "round", [a, p] =>
    if isNumericInstance a && isNumericInstance p && !isFloaty p then
      .ok (if isFloaty a then
             (if p.toQ = 0 then .vFloat ((roundHalfEven a.toQ : ℤ) : ℚ)
              else .vFloat (pyRoundTo a.toQ (pyTrunc p.toQ)))
           else .vInt (pyTrunc (pyRoundTo a.toQ (pyTrunc p.toQ))))
    else .error (.typeError "bad arguments to round()")
  | _, _ =>
    .error (.typeError (f ++ "() called with the wrong number of arguments"))

/-- Evaluating a call: anything except the scope's function objects is
not callable. -/
def applyCallable (g : PyVal) (args : List PyVal) : Except PyExc PyVal :=
  match g with
  | .vFunc f => applyFunc f args
  | _ => .error (.typeError ("\x27" ++ pyTypeShort g ++ "\x27 object is not callable"))

/-- Subscripting `obj[i]`: none of the values in this program support it;
the `NoneType` case carries the exact message `_evaluate` looks for. -/
def subscriptEval (o : PyVal) : Except PyExc PyVal :=
  .error (.typeError ("\x27" ++ pyTypeShort o ++ "\x27 object is not subscriptable"))

/-- Name lookup against the merged evaluation scope (see the remark at
`_LOCAL_EVAL_SCOPE` on the swapped `eval` arguments). -/
def scopeLookup (scope : List (String × PyVal)) (s : String) : Option PyVal :=
  (scope.find? (fun p => p.1 == s)).map Prod.snd

mutual

/-- Evaluation of an expression against a scope, raising the modelled
Python exceptions. -/
def evalExpr (scope : List (String × PyVal)) : Expr → Except PyExc PyVal
  | .lit v => .ok v
  | .name s =>
    match scopeLookup scope s with
    | some v => .ok v
    | none => .error (.nameError ("name \x27" ++ s ++ "\x27 is not defined"))
  | .bin o l r => do
    let a ← evalExpr scope l
    let b ← evalExpr scope r
    binOpEval o a b
  | .call f args => do
    let g ← evalExpr scope f
    let as ← evalArgs scope args
    applyCallable g as
  | .subscript obj idx => do
    let o ← evalExpr scope obj
    let _ ← evalExpr scope idx
    subscriptEval o

/-- Left-to-right evaluation of call arguments. -/
def evalArgs (scope : List (String × PyVal)) : List Expr → Except PyExc (List PyVal)
  | [] => .ok []
  | e :: es => do
    let v ← evalExpr scope e
    let vs ← evalArgs scope es
    .ok (v :: vs)

end

/-- Model of `_GLOBAL_EVAL_SCOPE` from `src/pcalc.py`: only the neutralised
builtins keys, both bound to `None`. -/
def _GLOBAL_EVAL_SCOPE : List (String × PyVal) :=
  [("__builtin__", .vNone), ("__builtins__", .vNone)]

/-- Model of `_LOCAL_EVAL_SCOPE` from `src/pcalc.py`: the neutralised builtins
keys plus the whitelisted callables and the `math` module.

The source calls `eval(expression, local_scope, global_scope)`, passing
this dict in the *globals* slot and the two-key dict in the *locals*
slot.  Name lookup consults locals then globals, and both dicts contain
the same `None` bindings for the builtins keys, so the effective mapping
is exactly this list (plus the per-call variable bindings appended by the
`eval` command). -/
def _LOCAL_EVAL_SCOPE : List (String × PyVal) :=
  _GLOBAL_EVAL_SCOPE ++
  [("abs", .vFunc "abs"), ("add", .vFunc "add"), ("ceil", .vFunc "ceil"),
   ("div", .vFunc "div"), ("floor", .vFunc "floor"), ("fmod", .vFunc "fmod"),
   ("math", .vModule "math"), ("mod", .vFunc "mod"), ("mul", .vFunc "mul"),
   ("pow", .vFunc "pow"), ("round", .vFunc "round"), ("sub", .vFunc "sub")]

/-- The scope of a streaming `eval` step: `local_scope.update(v=v)`. -/
def streamScope (v : ℚ) : List (String × PyVal) :=
  _LOCAL_EVAL_SCOPE ++ [("v", .vFloat v)]

/-- The scope of a reducing `eval` step:
`local_scope.update(a=result, b=v)`. -/
def reduceScope (a b : PyVal) : List (String × PyVal) :=
  _LOCAL_EVAL_SCOPE ++ [("a", a), ("b", b)]

/-- The uniform error for expressions that touch names or items missing
from the scope. -/
def scopeAccessError : ClickException :=
  ⟨"Expression attempted to access an object not present in the scope."⟩

/-- The message of the non-numeric-result failure, naming the offending
line and the received type. -/
def nonNumericMsg (line : ℕ) (r : PyVal) : String :=
  "Expression failed when processing line " ++ toString line ++
  " - output must be an int or float, not " ++ pyTypeName r ++ ": " ++ pyShow r

/-- The condition under which `_evaluate` rewrites an exception into
`scopeAccessError`: a `TypeError`/`NameError` whose lowercased message
either contains both `nonetype` and `object is not subscriptable`, or
contains `not defined`. -/
def translateCond (e : PyExc) : Bool :=
  e.isTypeOrNameError &&
  ((strContains (pyLower e.msg) "nonetype".toList
      && strContains (pyLower e.msg) "object is not subscriptable".toList)
   || strContains (pyLower e.msg) "not defined".toList)

/-- Model of `_evaluate` from `src/pcalc.py`: run `eval`, accept only
`isinstance(result, numeric_types)` results, and translate failures.  (In
the source the non-numeric `ClickException` is itself re-caught by the
blanket `except Exception` and re-raised as `ClickException(str(e))`; the
message is unchanged, which is what is modelled.) -/
def _evaluate (expression : Expr) (scope : List (String × PyVal)) (line : ℕ) :
    Except ClickException PyVal :=
  match evalExpr scope expression with
  | .ok result =>
    if isNumericInstance result then .ok result
    else .error ⟨nonNumericMsg line result⟩
  | .error e =>
    if translateCond e then .error scopeAccessError
    else .error ⟨e.msg⟩

/-- The streaming `eval` loop: parse a line, evaluate with `v` bound,
echo, move on; 1-indexed for error context. -/
def evalStreamGo (e : Expr) : List String → ℕ → List PyVal × Option ClickException
  | [], _ => ([], none)
  | l :: ls, idx =>
    match _cast_float l with
    | .error err => ([], some err)
    | .ok v =>
      match _evaluate e (streamScope v) idx with
      | .error err => ([], some err)
      | .ok r =>
        let rest := evalStreamGo e ls (idx + 1)
        (r :: rest.1, rest.2)

/-- The `eval` command without `--reduce`. -/
def runEvalStream (e : Expr) (lines : List String) : List PyVal × Option ClickException :=
  match surviving lines with
  | [] => ([], some emptyInputError)
  | ls => evalStreamGo e ls 1

/-- The reducing `eval` loop: the accumulator was seeded with the first
value; each further line is parsed and folded through `_evaluate` with
`a`/`b` bound; only the final accumulator is echoed. -/
def evalReduceGo (e : Expr) (acc : PyVal) : List String → ℕ → List PyVal × Option ClickException
  | [], _ => ([acc], none)
  | l :: ls, idx =>
    match _cast_float l with
    | .error err => ([], some err)
    | .ok v =>
      match _evaluate e (reduceScope acc (.vFloat v)) idx with
      | .error err => ([], some err)
      | .ok r => evalReduceGo e r ls (idx + 1)

/-- The `eval` command with `--reduce`: `result = next(values)`, then the
fold; a single surviving line is echoed without evaluating the
expression. -/
def runEvalReduce (e : Expr) (lines : List String) : List PyVal × Option ClickException :=
  match surviving lines with
  | [] => ([], some emptyInputError)
  | l :: ls =>
    match _cast_float l with
    | .error err => ([], some err)
    | .ok v => evalReduceGo e (.vFloat v) ls 1

/-- The command surface of the CLI, one constructor per subcommand with
its typed parameters. -/
inductive Command where
  | sum
  | round_ (precision : ℤ)
  | ceil
  | floor
  | mod (denominator : ℚ) (fmodFlag : Bool)
  | rmod (fmodFlag : Bool)
  | add (c : ℚ)
  | sub (c : ℚ)
  | mul (c : ℚ)
  | div (c : ℚ)
  | radd
  | rsub
  | rmul
  | rdiv
  | abs
  | min
  | max
  | median
  | mean
  | mode
  | pow (c : ℚ)
  | rpow
  | evalCmd (e : Expr) (reduceFlag : Bool)

/-- Dispatch of each subcommand of `src/pcalc.py` onto the runners: what
the process echoes and how it fails, given the stdin lines.  (`div` with
constant 0 would raise `ZeroDivisionError` per value in Python; ℚ
division by zero yields 0 and no claim exercises it.) -/
def runCommand : Command → List String → List PyVal × Option ClickException
  | .sum, lines => runReduce radd_val lines
  | .round_ p, lines =>
    runStream (fun v => if p = 0 then .vInt (roundHalfEven v) else .vFloat (pyRoundTo v p)) lines
  | .ceil, lines => runStream (fun v => .vInt ⌈v⌉) lines
  | .floor, lines => runStream (fun v => .vInt ⌊v⌋) lines
  | .mod d flag, lines => runStream (mod_streamFn flag d) lines
  | .rmod flag, lines => runReduce (rmod_val flag) lines
  | .add c, lines => runStream (fun v => .vFloat (v + c)) lines
  | .sub c, lines => runStream (fun v => .vFloat (v - c)) lines
  | .mul c, lines => runStream (fun v => .vFloat (v * c)) lines
  | .div c, lines => runStream (fun v => .vFloat (v / c)) lines
  | .radd, lines => runReduce radd_val lines
  | .rsub, lines => runReduce rsub_val lines
  | .rmul, lines => runReduce rmul_val lines
  | .rdiv, lines => runReduce rdiv_val lines
  | .abs, lines => runStream (fun v => .vFloat |v|) lines
  | .min, lines => runReduce min_val lines
  | .max, lines => runReduce max_val lines
  | .median, lines => runReduce median_val lines
  | .mean, lines => runReduce mean_val lines
  | .mode, lines => runReduce mode_val lines
  | .pow c, lines => runStream (fun v => .vFloat (pyPow v c)) lines
  | .rpow, lines => runReduce rpow_val lines
  | .evalCmd e false, lines => runEvalStream e lines
  | .evalCmd e true, lines => runEvalReduce e lines

/-- Result of the raw write performed by `click.echo`: success, or an
`IOError`/`OSError` carrying a message (a broken pipe from a departed
downstream consumer being the motivating case). -/
inductive WriteResult where
  | ok
  | ioError (msg : String)
deriving DecidableEq, Repr

/-- What one `_echo` call does with a write outcome. -/
inductive EchoOutcome where
  | emitted
  | suppressed
  | raised (excType : String) (msg : String)
deriving DecidableEq, Repr

/-- The attributes a Python 2 `IOError` instance exposes.  `lower` is a
`str` method; exception objects do not have it. -/
def ioErrorAttrs : List String := ["args", "errno", "strerror", "filename", "message"]

/-- Attribute access `e.<attr>` on an `IOError` whose message is `msg`:
missing attributes raise `AttributeError`.  (The payload returned for the
present attributes is immaterial to the claims.) -/
def ioErrorGetAttr (msg attr : String) : Except (String × String) String :=
  if attr ∈ ioErrorAttrs then .ok msg
  else .error ("AttributeError",
    "\x27exceptions.IOError\x27 object has no attribute \x27" ++ attr ++ "\x27")

/-- The Python 2 `_echo` wrapper from `src/pcalc.py`: `click.echo` in a
`try`, with `except IOError as e` testing
`if \x27broken pipe\x27 in e.lower()`.  Evaluating `e.lower` is an
attribute access on the exception object, which has no `lower` method, so
he handler itself raises `AttributeError`; the suppression branch that
the docstring promises is unreachable. -/
def _echo_py2 (w : WriteResult) : EchoOutcome :=
  match w with
  | .ok => .emitted
  | .ioError msg =>
    match ioErrorGetAttr msg "lower" with
    | .error (ty, m) => .raised ty m
    | .ok lowered =>
      if strContains (pyLower lowered) "broken pipe".toList then .suppressed
      else .raised "IOError" msg

/-- On Python 3, `_echo` is `click.echo` itself: there is no handler, so
any write failure propagates unchanged. -/
def _echo_py3 (w : WriteResult) : EchoOutcome :=
  match w with
  | .ok => .emitted
  | .ioError msg => .raised "IOError" msg

/-! ## Claim theorems -/

/-- C4: for every non-empty input stream the reducers `radd`, `rsub`,
`rmul`, `rdiv` and `rpow` return the left fold of the corresponding
binary operator over the values in encounter order with the accumulator
initialised to the first value; in particular `radd [1,2,3] = 6`,
`rsub [1,2,3] = -4`, `rmul [2,2,2] = 8` and `rdiv [100,10,2] = 5`. -/
theorem C4_reducers_left_fold (x : ℚ) (xs : List ℚ) :
    radd_val (x :: xs) = .ok (.vFloat (xs.foldl (· + ·) x)) ∧
    rsub_val (x :: xs) = .ok (.vFloat (xs.foldl (· - ·) x)) ∧
    rmul_val (x :: xs) = .ok (.vFloat (xs.foldl (· * ·) x)) ∧
    rdiv_val (x :: xs) = .ok (.vFloat (xs.foldl (· / ·) x)) ∧
    rpow_val (x :: xs) = .ok (.vFloat (xs.foldl pyPow x)) ∧
    radd_val [1, 2, 3] = .ok (.vFloat 6) ∧
    rsub_val [1, 2, 3] = .ok (.vFloat (-4)) ∧
    rmul_val [2, 2, 2] = .ok (.vFloat 8) ∧
    rdiv_val [100, 10, 2] = .ok (.vFloat 5) := by
  refine ⟨rfl, rfl, rfl, rfl, rfl, ?_, ?_, ?_, ?_⟩ <;> with_unfolding_all decide

/-- C9: the spec demands that writes failing because the downstream
reader went away be swallowed silently, and the Python 2 `_echo`
docstring promises exactly that ("Catch that condition and do nothing");
the code does not deliver it.  On Python 3 `_echo` is plain `click.echo`
and the broken-pipe `IOError` propagates; on Python 2 the handler calls
`e.lower()` on the exception object, which has no such attribute, so the
handler raises `AttributeError` instead of suppressing; no write failure
is ever suppressed. -/
theorem C9_broken_pipe_not_swallowed :
    _echo_py3 (.ioError "[Errno 32] Broken pipe") =
      .raised "IOError" "[Errno 32] Broken pipe" ∧
    _echo_py2 (.ioError "[Errno 32] Broken pipe") =
      .raised "AttributeError"
        "\x27exceptions.IOError\x27 object has no attribute \x27lower\x27" ∧
    (∀ w : WriteResult, _echo_py2 w ≠ .suppressed) ∧
    (∀ w : WriteResult, _echo_py3 w ≠ .suppressed) := by
  refine ⟨rfl, by decide, ?_, ?_⟩ <;> intro w <;> cases w <;> simp [_echo_py2, _echo_py3, ioErrorGetAttr, ioErrorAttrs]

/-- C10: the expression evaluator accepts a result exactly when it is a
Python `int`, `float` or `bool` (`bool` being an `int` subclass, it
passes `isinstance(result, (int, float))`); a boolean result such as the
value of `v > 1` is therefore echoed (Python prints it as `True`/`False`)
instead of being rejected with the non-numeric-result error. -/
theorem C10_bool_results_accepted :
    (∀ r : PyVal, isNumericInstance r = true ↔
      (∃ n, r = .vInt n) ∨ (∃ q, r = .vFloat q) ∨ (∃ b, r = .vBool b)) ∧
    (∀ (e : Expr) (scope : List (String × PyVal)) (line : ℕ) (b : Bool),
      evalExpr scope e = .ok (.vBool b) → _evaluate e scope line = .ok (.vBool b)) ∧
    runCommand (.evalCmd (.bin .gt (.name "v") (.lit (.vInt 1))) false) ["0", "2"] =
      ([.vBool false, .vBool true], none) := by
  refine ⟨?_, ?_, by with_unfolding_all decide⟩
  · intro r
    cases r <;> simp [isNumericInstance]
  · intro e scope line b h
    simp [_evaluate, h, isNumericInstance]

/-- C10 witness: the acceptance branch applied at a concrete boolean
result. -/
theorem C10_bool_results_accepted_witness :
    _evaluate (.lit (.vBool true)) [] 1 = .ok (.vBool true) :=
  C10_bool_results_accepted.2.1 (.lit (.vBool true)) [] 1 true rfl

/-- C6 counterexample: the claim asserts that only the alternate
(`--fmod`) mode's result is cast to integer, so the default mode should
return `v mod d` itself; but on `v = 7.5`, `d = 2` the default-mode
`mod` emits the Python int `1` while `v mod d = 1.5`.  The callback
`_cb_fmod` wraps `int(...)` around both modes. -/
theorem C6_counterexample :
    mod_streamFn false 2 (15 / 2) = .vInt 1 ∧
    pyMod (15 / 2) 2 = 3 / 2 ∧
    (PyVal.vInt 1 : PyVal) ≠ .vFloat (3 / 2) := by
  with_unfolding_all decide

/-- For nonnegative `t`, `t - trunc t` lies in `[0, 1)`. -/
theorem sub_pyTrunc_nonneg {t : ℚ} (h : 0 ≤ t) :
    0 ≤ t - pyTrunc t ∧ t - pyTrunc t < 1 := by
  rw [pyTrunc, if_pos h]
  have h1 := Int.floor_le t
  have h2 := Int.lt_floor_add_one t
  exact ⟨by linarith, by linarith⟩

/-- For nonpositive `t`, `t - trunc t` lies in `(-1, 0]`. -/
theorem sub_pyTrunc_nonpos {t : ℚ} (h : t ≤ 0) :
    -1 < t - pyTrunc t ∧ t - pyTrunc t ≤ 0 := by
  rw [pyTrunc]
  by_cases h0 : 0 ≤ t
  · rw [if_pos h0]
    have ht : t = 0 := le_antisymm h h0
    subst ht
    simp
  · rw [if_neg h0]
    have h1 := Int.le_ceil t
    have h2 := Int.ceil_lt_add_one t
    constructor <;> push_cast at h1 h2 ⊢ <;> linarith

/-- Sign-of-divisor range of Python `%` for a positive divisor. -/
theorem pyMod_pos {v d : ℚ} (hd : 0 < d) : 0 ≤ pyMod v d ∧ pyMod v d < d := by
  have key : pyMod v d = d * Int.fract (v / d) := by
    rw [pyMod, Int.fract, mul_sub, mul_div_cancel₀ _ hd.ne']
  refine ⟨key ▸ mul_nonneg hd.le (Int.fract_nonneg _), ?_⟩
  have h1 := Int.fract_lt_one (v / d)
  calc pyMod v d = d * Int.fract (v / d) := key
    _ < d * 1 := by exact mul_lt_mul_of_pos_left h1 hd
    _ = d := mul_one d

/-- Sign-of-divisor range of Python `%` for a negative divisor. -/
theorem pyMod_neg {v d : ℚ} (hd : d < 0) : d < pyMod v d ∧ pyMod v d ≤ 0 := by
  have key : pyMod v d = d * Int.fract (v / d) := by
    rw [pyMod, Int.fract, mul_sub, mul_div_cancel₀ _ hd.ne]
  constructor
  · have h1 := Int.fract_lt_one (v / d)
    calc d = d * 1 := (mul_one d).symm
      _ < d * Int.fract (v / d) := mul_lt_mul_of_neg_left h1 hd
      _ = pyMod v d := key.symm
  · rw [key]
    exact mul_nonpos_iff.mpr (Or.inr ⟨hd.le, Int.fract_nonneg _⟩)

/-- Python `math.fmod` carries the sign of the dividend. -/
theorem pyFmod_sign (v d : ℚ) :
    (0 ≤ v → 0 ≤ pyFmod v d) ∧ (v ≤ 0 → pyFmod v d ≤ 0) := by
  by_cases hd : d = 0
  · subst hd
    simp [pyFmod]
  · have key : pyFmod v d = d * (v / d - pyTrunc (v / d)) := by
      rw [pyFmod, mul_sub, mul_div_cancel₀ _ hd]
    rcases lt_or_gt_of_ne hd with hneg | hpos
    · constructor
      · intro hv
        have ht : v / d ≤ 0 := div_nonpos_iff.mpr (Or.inl ⟨hv, hneg.le⟩)
        have hb := sub_pyTrunc_nonpos ht
        rw [key]
        exact mul_nonneg_iff.mpr (Or.inr ⟨hneg.le, hb.2⟩)
      · intro hv
        have ht : 0 ≤ v / d := div_nonneg_iff.mpr (Or.inr ⟨hv, hneg.le⟩)
        have hb := sub_pyTrunc_nonneg ht
        rw [key]
        exact mul_nonpos_iff.mpr (Or.inr ⟨hneg.le, hb.1⟩)
    · constructor
      · intro hv
        have ht : 0 ≤ v / d := div_nonneg hv hpos.le
        have hb := sub_pyTrunc_nonneg ht
        rw [key]
        exact mul_nonneg hpos.le hb.1
      · intro hv
        have ht : v / d ≤ 0 := div_nonpos_iff.mpr (Or.inr ⟨hv, hpos.le⟩)
        have hb := sub_pyTrunc_nonpos ht
        rw [key]
        exact mul_nonpos_iff.mpr (Or.inl ⟨hpos.le, hb.2⟩)

/-- C6 (amended): `mod` computes the sign-of-divisor modulo by default
and the sign-of-dividend `math.fmod` remainder with the `--fmod` flag,
but in BOTH modes the callback passes the result through `int()`, so the
flag does not change the output type; `rmod [7, -3]` under
sign-of-dividend semantics equals 1. -/
theorem C6_mod_both_modes_cast (v d : ℚ) (flag : Bool) :
    mod_streamFn flag d v = .vInt (pyTrunc ((if flag then pyFmod else pyMod) v d)) ∧
    mod_streamFn false d v = .vInt (pyTrunc (pyMod v d)) ∧
    mod_streamFn true d v = .vInt (pyTrunc (pyFmod v d)) ∧
    (0 < d → 0 ≤ pyMod v d ∧ pyMod v d < d) ∧
    (d < 0 → d < pyMod v d ∧ pyMod v d ≤ 0) ∧
    (0 ≤ v → 0 ≤ pyFmod v d) ∧
    (v ≤ 0 → pyFmod v d ≤ 0) ∧
    rmod_val true [7, -3] = .ok (.vInt 1) := by
  refine ⟨rfl, rfl, rfl, fun h => pyMod_pos h, fun h => pyMod_neg h,
    (pyFmod_sign v d).1, (pyFmod_sign v d).2, ?_⟩
  with_unfolding_all decide

/-- C6 witness: the amended theorem applied at the counterexample input
and at the test vector `[7, -3]` with the `--fmod` flag. -/
theorem C6_mod_both_modes_cast_witness :
    mod_streamFn false 2 (15 / 2) = .vInt (pyTrunc (pyMod (15 / 2) 2)) ∧
    (-3 : ℚ) < pyMod 7 (-3) ∧ pyMod 7 (-3) ≤ 0 ∧
    rmod_val true [7, -3] = .ok (.vInt 1) := by
  refine ⟨(C6_mod_both_modes_cast (15 / 2) 2 false).2.1, ?_, ?_,
    (C6_mod_both_modes_cast 7 (-3) true).2.2.2.2.2.2.2⟩
  · exact ((C6_mod_both_modes_cast 7 (-3) true).2.2.2.2.1 (by norm_num)).1
  · exact ((C6_mod_both_modes_cast 7 (-3) true).2.2.2.2.1 (by norm_num)).2

/-- C5: a stream of exactly one value is returned unchanged by every
reducing operator — the binary operator (and in particular `rmod`'s
`int()` cast) is never applied — and `eval --reduce` echoes it without
evaluating the expression (the expression may even be one that would
fail). -/
theorem C5_singleton_unchanged (v : ℚ) :
    radd_val [v] = .ok (.vFloat v) ∧
    rsub_val [v] = .ok (.vFloat v) ∧
    rmul_val [v] = .ok (.vFloat v) ∧
    rdiv_val [v] = .ok (.vFloat v) ∧
    (∀ flag, rmod_val flag [v] = .ok (.vFloat v)) ∧
    rpow_val [v] = .ok (.vFloat v) ∧
    min_val [v] = .ok (.vFloat v) ∧
    max_val [v] = .ok (.vFloat v) ∧
    mean_val [v] = .ok (.vFloat v) ∧
    median_val [v] = .ok (.vFloat v) ∧
    (∀ (e : Expr) (l : String), l.trim ≠ "" → _cast_float l = .ok v →
      runCommand (.evalCmd e true) [l] = ([.vFloat v], none)) := by
  refine ⟨rfl, rfl, rfl, rfl, fun _ => rfl, rfl, rfl, rfl, ?_, ?_, ?_⟩
  · simp [mean_val]
  · simp [median_val, List.mergeSort_singleton]
  · intro e l hl hv
    simp [runCommand, runEvalReduce, surviving, hl, hv, evalReduceGo]

/-- C5 witness: the single-value theorem applied at `-10` (the vector of
the repository's own single-value test), with a failing expression for
the `eval --reduce` branch. -/
theorem C5_singleton_unchanged_witness :
    radd_val [(-10 : ℚ)] = .ok (.vFloat (-10)) ∧
    rmod_val true [(-10 : ℚ)] = .ok (.vFloat (-10)) ∧
    runCommand (.evalCmd (.name "zzz") true) ["-10"] = ([.vFloat (-10)], none) := by
  refine ⟨(C5_singleton_unchanged (-10)).1, (C5_singleton_unchanged (-10)).2.2.2.2.1 true, ?_⟩
  exact (C5_singleton_unchanged (-10)).2.2.2.2.2.2.2.2.2.2 (.name "zzz") "-10"
    (by with_unfolding_all decide) (by with_unfolding_all decide)

/-- C3: when every input line is blank or whitespace-only (including the
completely empty input), every operation fails with the empty-input error
and produces no output: the emptiness peek in `_values` fires before any
value is emitted. -/
theorem C3_empty_input (cmd : Command) (lines : List String)
    (h : ∀ l ∈ lines, l.trim = "") :
    runCommand cmd lines = ([], some emptyInputError) := by
  have hs : surviving lines = [] := by
    apply List.filter_eq_nil_iff.mpr
    intro l hl
    simp [h l hl]
  cases cmd
  case evalCmd e flag =>
    cases flag <;> simp [runCommand, runEvalStream, runEvalReduce, hs]
  all_goals
    simp [runCommand, runStream, runReduce, runEvalStream, runEvalReduce, _values, hs]

/-- C3 witness: the empty-input theorem applied to `median` on a blank
and a whitespace-only line. -/
theorem C3_empty_input_witness :
    runCommand .median ["", "   "] = ([], some emptyInputError) :=
  C3_empty_input .median ["", "   "] (by with_unfolding_all decide)

/-- Streaming over survivors that start with well-parsing lines and then
hit a non-parsing one: the earlier results are emitted, then the run
stops with the parse error of the bad line. -/
theorem streamGo_bad (f : ℚ → PyVal) (pre rest : List String) (bad : String) (vs : List ℚ)
    (hpre : castAll pre = Except.ok vs) (hbad : parsePyFloat bad = none) :
    streamGo f (pre ++ bad :: rest) = (vs.map f, some (parseError bad)) := by
  induction pre generalizing vs with
  | nil =>
    simp only [castAll] at hpre
    cases hpre
    simp [streamGo, _cast_float, hbad]
  | cons l ls ih =>
    simp only [castAll] at hpre
    cases hcl : _cast_float l with
    | error e => rw [hcl] at hpre; exact absurd hpre (by simp)
    | ok v =>
      rw [hcl] at hpre
      cases hls : castAll ls with
      | error e => rw [hls] at hpre; exact absurd hpre (by simp)
      | ok ws =>
        rw [hls] at hpre
        cases hpre
        simp [streamGo, hcl, ih ws hls]

/-- Casting survivors that contain a non-parsing line fails with that
line's parse error. -/
theorem castAll_bad (pre rest : List String) (bad : String) (vs : List ℚ)
    (hpre : castAll pre = Except.ok vs) (hbad : parsePyFloat bad = none) :
    castAll (pre ++ bad :: rest) = .error (parseError bad) := by
  induction pre generalizing vs with
  | nil => simp [castAll, _cast_float, hbad]
  | cons l ls ih =>
    simp only [castAll] at hpre
    cases hcl : _cast_float l with
    | error e => rw [hcl] at hpre; exact absurd hpre (by simp)
    | ok v =>
      rw [hcl] at hpre
      cases hls : castAll ls with
      | error e => rw [hls] at hpre; exact absurd hpre (by simp)
      | ok ws =>
        simp [castAll, hcl, ih ws hls]

/-- C8: an input whose surviving lines contain a non-parsing line fails
with the parse error carrying that line's raw text; a streaming command
has emitted exactly the transforms of the strictly earlier surviving
values (nothing for the bad line or any later line), and a reducing
command has emitted nothing at all. -/
theorem runStream_of_ne (f : ℚ → PyVal) (lines : List String)
    (h : surviving lines ≠ []) : runStream f lines = streamGo f (surviving lines) := by
  rw [runStream]
  cases hc : surviving lines with
  | nil => exact absurd hc h
  | cons a as => rfl

theorem _values_of_ne (lines : List String) (h : surviving lines ≠ []) :
    _values lines = castAll (surviving lines) := by
  rw [_values]
  cases hc : surviving lines with
  | nil => exact absurd hc h
  | cons a as => rfl

theorem C8_parse_error (f : ℚ → PyVal) (g : List ℚ → Except ClickException PyVal)
    (lines pre rest : List String) (bad : String) (vs : List ℚ)
    (hsurv : surviving lines = pre ++ bad :: rest)
    (hpre : castAll pre = Except.ok vs)
    (hbad : parsePyFloat bad = none) :
    runStream f lines = (vs.map f, some (parseError bad)) ∧
    runReduce g lines = ([], some (parseError bad)) := by
  have hne : surviving lines ≠ [] := by rw [hsurv]; simp
  constructor
  · rw [runStream_of_ne f lines hne, hsurv,
      streamGo_bad f pre rest bad vs hpre hbad]
  · rw [runReduce, _values_of_ne lines hne, hsurv,
      castAll_bad pre rest bad vs hpre hbad]

/-- C8 witness: a stream with one good line, a blank line, a bad line and
a trailing line, run through the `add 1` streaming command and the `radd`
reducer. -/
theorem C8_parse_error_witness :
    runStream (fun v => .vFloat (v + 1)) ["1", " ", "x", "3"] =
      ([.vFloat 2], some (parseError "x")) ∧
    runReduce radd_val ["1", " ", "x", "3"] = ([], some (parseError "x")) := by
  have h := C8_parse_error (fun v => .vFloat (v + 1)) radd_val
    ["1", " ", "x", "3"] ["1"] ["3"] "x" [1]
    (by with_unfolding_all decide) (by with_unfolding_all decide)
    (by with_unfolding_all decide)
  exact ⟨h.1.trans (by with_unfolding_all decide), h.2⟩

/-- The two cells of a length-2 slice, as indexed reads. -/
theorem take_two_drop (l : List ℚ) (i : ℕ) (h : i + 1 < l.length) :
    (l.drop i).take 2 = [l.getD i 0, l.getD (i + 1) 0] := by
  have h0 : i < l.length := by omega
  rw [List.drop_eq_getElem_cons h0, List.drop_eq_getElem_cons h]
  rw [List.getD_eq_getElem l 0 h0, List.getD_eq_getElem l 0 h]
  rfl

/-- C1: `median` materialises and sorts the values ascending; an odd
count takes the element at index `(count - 1) / 2` of the sorted
sequence, an even count averages the elements at indices `count/2 - 1`
and `count/2`; `median [1,2,3] = 2` and `median [1,2,3,4] = 2.5`. -/
theorem C1_median (x : ℚ) (xs : List ℚ) :
    ((x :: xs).mergeSort (fun a b => decide (a ≤ b))).Sorted (· ≤ ·) ∧
    ((x :: xs).mergeSort (fun a b => decide (a ≤ b))).Perm (x :: xs) ∧
    ((x :: xs).length % 2 = 1 →
      median_val (x :: xs) = .ok (.vFloat
        (((x :: xs).mergeSort (fun a b => decide (a ≤ b))).getD
          (((x :: xs).length - 1) / 2) 0))) ∧
    ((x :: xs).length % 2 = 0 →
      median_val (x :: xs) = .ok (.vFloat
        ((((x :: xs).mergeSort (fun a b => decide (a ≤ b))).getD
            ((x :: xs).length / 2 - 1) 0 +
          ((x :: xs).mergeSort (fun a b => decide (a ≤ b))).getD
            ((x :: xs).length / 2) 0) / 2))) ∧
    median_val [1, 2, 3] = .ok (.vFloat 2) ∧
    median_val [1, 2, 3, 4] = .ok (.vFloat (5 / 2)) := by
  set s := (x :: xs).mergeSort (fun a b => decide (a ≤ b)) with hs
  have hlen : s.length = (x :: xs).length := List.length_mergeSort _
  have hn : 1 ≤ (x :: xs).length := by simp
  refine ⟨?_, ?_, ?_, ?_, ?_, ?_⟩
  · have hp := @List.sorted_mergeSort ℚ (fun a b : ℚ => decide (a ≤ b))
      (by intro a b c hab hbc; simp only [decide_eq_true_eq] at *; exact le_trans hab hbc)
      (by intro a b; simpa using le_total a b) (x :: xs)
    exact hp.imp (by simp)
  · exact List.mergeSort_perm _ _
  · intro hodd
    simp only [median_val, ← hs, hlen]
    rw [if_pos hodd]
  · intro heven
    have h2 : 2 ≤ (x :: xs).length := by omega
    simp only [median_val, ← hs, hlen]
    rw [if_neg (by omega)]
    have hstart : (x :: xs).length / 2 + 1 - 2 = (x :: xs).length / 2 - 1 := by omega
    rw [hstart]
    have htake : (x :: xs).length / 2 + 1 - ((x :: xs).length / 2 - 1) = 2 := by omega
    rw [htake]
    have hidx : (x :: xs).length / 2 - 1 + 1 < s.length := by
      rw [hlen]; omega
    rw [take_two_drop s _ hidx]
    have hplus : (x :: xs).length / 2 - 1 + 1 = (x :: xs).length / 2 := by omega
    rw [hplus]
    simp
  · with_unfolding_all decide
  · with_unfolding_all decide

/-- C1 witness: the parity branches applied to the vectors `[1,2,3]` and
`[1,2,3,4]`. -/
theorem C1_median_witness :
    median_val [1, 2, 3] = .ok (.vFloat 2) ∧
    median_val [1, 2, 3, 4] = .ok (.vFloat (5 / 2)) := by
  have h1 := (C1_median 1 [2, 3]).2.2.1 (by with_unfolding_all decide)
  have h2 := (C1_median 1 [2, 3, 4]).2.2.2.1 (by with_unfolding_all decide)
  exact ⟨h1.trans (by with_unfolding_all decide), h2.trans (by with_unfolding_all decide)⟩

/-- The fixed scope names the spec enumerates. -/
def fixedScopeNames : List String :=
  ["abs", "add", "ceil", "div", "floor", "fmod", "math", "mod", "mul", "pow", "round", "sub"]

theorem pyLower_append (a b : String) : pyLower (a ++ b) = pyLower a ++ pyLower b := by
  rw [pyLower, pyLower, pyLower, String.toList, String.toList, String.toList,
    String.data_append, List.map_append]

/-- A pattern occurring in the suffix occurs in the whole lowered
string. -/
theorem strContains_of_suffix (pre suf : String) (pat : List Char)
    (h : pat <:+: pyLower suf) : strContains (pyLower (pre ++ suf)) pat = true := by
  rw [strContains, decide_eq_true_eq, pyLower_append]
  exact h.trans (List.suffix_append _ _).isInfix

/-- The `NameError` message produced for any unresolvable name satisfies
the translation condition of `_evaluate`. -/
theorem nameError_translates (s : String) :
    translateCond (.nameError ("name \x27" ++ s ++ "\x27 is not defined")) = true := by
  have hB := strContains_of_suffix ("name \x27" ++ s) "\x27 is not defined"
    "not defined".toList (by with_unfolding_all decide)
  rw [translateCond]
  simp only [PyExc.isTypeOrNameError, PyExc.msg, Bool.true_and, Bool.or_eq_true]
  exact Or.inr hB

/-- Lookup skips a scope entry whose key differs. -/
theorem scopeLookup_cons_ne {k : String} {val : PyVal} {rest : List (String × PyVal)}
    {s : String} (h : k ≠ s) :
    scopeLookup ((k, val) :: rest) s = scopeLookup rest s := by
  rw [scopeLookup, scopeLookup, List.find?]
  simp [beq_eq_false_iff_ne.mpr h]

/-- C7 counterexample: the claim says every name outside the fixed scope
list and the bound variables fails with the scope-access message, but the
scope dictionaries also carry `__builtin__`/`__builtins__` bound to
`None`; referencing `__builtins__` resolves to `None` and is rejected by
the numeric-result check with a different message. -/
theorem C7_counterexample :
    ("__builtins__" ∉ fixedScopeNames ∧ "__builtins__" ≠ "v") ∧
    evalExpr (streamScope 1) (.name "__builtins__") = .ok .vNone ∧
    _evaluate (.name "__builtins__") (streamScope 1) 1 =
      .error ⟨nonNumericMsg 1 .vNone⟩ ∧
    ClickException.mk (nonNumericMsg 1 .vNone) ≠ scopeAccessError := by
  with_unfolding_all decide

/-- C7 (amended): the resolvable names are exactly the fixed scope names
(abs, add, ceil, div, floor, fmod, math, mod, mul, pow, round, sub), the
bound variables (`v` when streaming, `a`/`b` when reducing), and the two
neutralised builtins keys `__builtin__`/`__builtins__` (bound to `None`).
Referencing any other name fails deterministically with the
`ExpressionError` saying the expression attempted to access an object not
present in the scope; evaluation failures outside the translation
condition surface with their natural description. -/
theorem C7_scope_amended (v : ℚ) (a b : PyVal) (line : ℕ) (s : String) :
    (s ∈ fixedScopeNames → ∃ val, evalExpr (streamScope v) (.name s) = .ok val) ∧
    evalExpr (streamScope v) (.name "v") = .ok (.vFloat v) ∧
    (s ∈ fixedScopeNames → ∃ val, evalExpr (reduceScope a b) (.name s) = .ok val) ∧
    evalExpr (reduceScope a b) (.name "a") = .ok a ∧
    evalExpr (reduceScope a b) (.name "b") = .ok b ∧
    (s ∉ fixedScopeNames → s ≠ "v" → s ≠ "__builtin__" → s ≠ "__builtins__" →
      _evaluate (.name s) (streamScope v) line = .error scopeAccessError) ∧
    (s ∉ fixedScopeNames → s ≠ "a" → s ≠ "b" → s ≠ "__builtin__" → s ≠ "__builtins__" →
      _evaluate (.name s) (reduceScope a b) line = .error scopeAccessError) ∧
    (∀ (e : Expr) (scope : List (String × PyVal)) (exc : PyExc),
      evalExpr scope e = .error exc → translateCond exc = false →
      _evaluate e scope line = .error ⟨exc.msg⟩) := by
  refine ⟨?_, rfl, ?_, ?_, ?_, ?_, ?_, ?_⟩
  · intro hmem
    fin_cases hmem <;> exact ⟨_, rfl⟩
  · intro hmem
    fin_cases hmem <;> exact ⟨_, rfl⟩
  · rfl
  · rfl
  · intro hnot hv hb1 hb2
    simp only [fixedScopeNames, List.mem_cons, List.not_mem_nil, not_or] at hnot
    obtain ⟨n1, n2, n3, n4, n5, n6, n7, n8, n9, n10, n11, n12, -⟩ := hnot
    have hnone : scopeLookup (streamScope v) s = none := by
      rw [streamScope, _LOCAL_EVAL_SCOPE, _GLOBAL_EVAL_SCOPE]
      simp only [List.cons_append, List.nil_append]
      rw [scopeLookup_cons_ne (Ne.symm hb1), scopeLookup_cons_ne (Ne.symm hb2),
        scopeLookup_cons_ne (Ne.symm n1), scopeLookup_cons_ne (Ne.symm n2),
        scopeLookup_cons_ne (Ne.symm n3), scopeLookup_cons_ne (Ne.symm n4),
        scopeLookup_cons_ne (Ne.symm n5), scopeLookup_cons_ne (Ne.symm n6),
        scopeLookup_cons_ne (Ne.symm n7), scopeLookup_cons_ne (Ne.symm n8),
        scopeLookup_cons_ne (Ne.symm n9), scopeLookup_cons_ne (Ne.symm n10),
        scopeLookup_cons_ne (Ne.symm n11), scopeLookup_cons_ne (Ne.symm n12),
        scopeLookup_cons_ne (Ne.symm hv)]
      rfl
    simp only [_evaluate, evalExpr, hnone]
    rw [if_pos (nameError_translates s)]
  · intro hnot ha hb hb1 hb2
    simp only [fixedScopeNames, List.mem_cons, List.not_mem_nil, not_or] at hnot
    obtain ⟨n1, n2, n3, n4, n5, n6, n7, n8, n9, n10, n11, n12, -⟩ := hnot
    have hnone : scopeLookup (reduceScope a b) s = none := by
      rw [reduceScope, _LOCAL_EVAL_SCOPE, _GLOBAL_EVAL_SCOPE]
      simp only [List.cons_append, List.nil_append]
      rw [scopeLookup_cons_ne (Ne.symm hb1), scopeLookup_cons_ne (Ne.symm hb2),
        scopeLookup_cons_ne (Ne.symm n1), scopeLookup_cons_ne (Ne.symm n2),
        scopeLookup_cons_ne (Ne.symm n3), scopeLookup_cons_ne (Ne.symm n4),
        scopeLookup_cons_ne (Ne.symm n5), scopeLookup_cons_ne (Ne.symm n6),
        scopeLookup_cons_ne (Ne.symm n7), scopeLookup_cons_ne (Ne.symm n8),
        scopeLookup_cons_ne (Ne.symm n9), scopeLookup_cons_ne (Ne.symm n10),
        scopeLookup_cons_ne (Ne.symm n11), scopeLookup_cons_ne (Ne.symm n12),
        scopeLookup_cons_ne (Ne.symm ha), scopeLookup_cons_ne (Ne.symm hb)]
      rfl
    simp only [_evaluate, evalExpr, hnone]
    rw [if_pos (nameError_translates s)]
  · intro e scope exc hev hcond
    rw [_evaluate, hev]
    show (if translateCond exc = true then Except.error scopeAccessError
      else Except.error ⟨exc.msg⟩) = Except.error (⟨exc.msg⟩ : ClickException)
    rw [if_neg (by simp [hcond])]

/-- C7 witness: an undefined name yields the scope-access error; a
division by zero surfaces with its natural message. -/
theorem C7_scope_amended_witness :
    _evaluate (.name "undefined_name") (streamScope 1) 1 = .error scopeAccessError ∧
    _evaluate (.bin .div (.lit (.vInt 1)) (.lit (.vInt 0))) (streamScope 1) 1 =
      .error ⟨"division by zero"⟩ := by
  constructor
  · exact (C7_scope_amended 1 (.vFloat 0) (.vFloat 0) 1 "undefined_name").2.2.2.2.2.1
      (by with_unfolding_all decide) (by with_unfolding_all decide)
      (by with_unfolding_all decide) (by with_unfolding_all decide)
  · exact (C7_scope_amended 1 (.vFloat 0) (.vFloat 0) 1 "undefined_name").2.2.2.2.2.2.2
      (.bin .div (.lit (.vInt 1)) (.lit (.vInt 0))) (streamScope 1)
      (.zeroDivisionError "division by zero")
      (by with_unfolding_all decide) (by with_unfolding_all decide)

theorem mem_firstSeenKeys {a : ℚ} {xs : List ℚ} : a ∈ firstSeenKeys xs ↔ a ∈ xs := by
  rw [firstSeenKeys]
  simp [List.mem_dedup]

theorem nodup_firstSeenKeys (xs : List ℚ) : (firstSeenKeys xs).Nodup := by
  rw [firstSeenKeys]
  exact List.nodup_reverse.mpr (List.nodup_dedup _)

theorem mem_counter {p : ℚ × ℕ} {xs : List ℚ} :
    p ∈ counter xs ↔ p.1 ∈ xs ∧ p.2 = xs.count p.1 := by
  obtain ⟨p1, p2⟩ := p
  rw [counter]
  simp only [List.mem_map, Prod.mk.injEq]
  constructor
  · rintro ⟨k, hk, rfl, rfl⟩
    exact ⟨mem_firstSeenKeys.mp hk, rfl⟩
  · rintro ⟨h1, h2⟩
    exact ⟨p1, mem_firstSeenKeys.mpr h1, rfl, h2.symm⟩

theorem counter_keys_nodup (xs : List ℚ) : ((counter xs).map Prod.fst).Nodup := by
  rw [counter, List.map_map]
  have h : (Prod.fst ∘ fun v : ℚ => (v, xs.count v)) = id := rfl
  rw [h, List.map_id]
  exact nodup_firstSeenKeys xs

/-- The stable sort behind `most_common` is descending in the counts. -/
theorem sc_pairwise (xs : List ℚ) :
    ((counter xs).mergeSort byCountDesc).Pairwise
      (fun a b : ℚ × ℕ => b.2 ≤ a.2) := by
  have hp := @List.sorted_mergeSort (ℚ × ℕ) byCountDesc
    (by
      intro u w z h1 h2
      rw [byCountDesc, decide_eq_true_eq] at *
      omega)
    (by
      intro u w
      rw [byCountDesc, byCountDesc]
      rcases Nat.le_total w.2 u.2 with h | h <;> simp [h])
    (counter xs)
  exact hp.imp (by
    intro u w h
    rwa [byCountDesc, decide_eq_true_eq] at h)

/-- The `mode` command returns the value when exactly one value attains
the maximum frequency. -/
theorem mode_unique (xs : List ℚ) (v : ℚ) (hv : v ∈ xs)
    (hmax : ∀ w ∈ xs, xs.count w ≤ xs.count v)
    (huniq : ∀ w ∈ xs, xs.count w = xs.count v → w = v) :
    mode_val xs = .ok (.vFloat v) := by
  have hperm := List.mergeSort_perm (counter xs) byCountDesc
  have hpw := sc_pairwise xs
  have hvc : (v, xs.count v) ∈ counter xs := mem_counter.mpr ⟨hv, rfl⟩
  have hvs : (v, xs.count v) ∈ (counter xs).mergeSort byCountDesc :=
    hperm.mem_iff.mpr hvc
  cases hsc : (counter xs).mergeSort byCountDesc with
  | nil =>
    rw [hsc] at hvs
    exact absurd hvs (List.not_mem_nil _)
  | cons p tl =>
    rw [hsc] at hvs hpw hperm
    have hpc : p ∈ counter xs := hperm.mem_iff.mp (List.mem_cons_self _ _)
    obtain ⟨hp1, hp2⟩ := mem_counter.mp hpc
    have hple : p.2 ≤ xs.count v := hp2 ▸ hmax p.1 hp1
    have hpge : xs.count v ≤ p.2 := by
      rcases List.mem_cons.mp hvs with heq | hmem
      · rw [← heq]
      · exact (List.pairwise_cons.mp hpw).1 _ hmem
    have hpv2 : p.2 = xs.count v := le_antisymm hple hpge
    have hpv1 : p.1 = v := huniq p.1 hp1 (by rw [← hp2, hpv2])
    have hcond : ¬(1 < (counter xs).length ∧
        ((most_common xs 2).map Prod.snd).dedup.length = 1) := by
      rintro ⟨hlen, hded⟩
      have hslen : (p :: tl).length = (counter xs).length := by
        rw [← hsc]
        exact List.length_mergeSort _
      cases tl with
      | nil => simp at hslen; omega
      | cons q tl2 =>
        have hqc : q ∈ counter xs := hperm.mem_iff.mp (by simp)
        obtain ⟨hq1, hq2⟩ := mem_counter.mp hqc
        have hqle : q.2 ≤ xs.count v := hq2 ▸ hmax q.1 hq1
        have hmc : most_common xs 2 = [p, q] := by
          rw [most_common, hsc]
          rfl
        rw [hmc] at hded
        have hpq : p.2 = q.2 := by
          by_contra hne2
          rw [List.map_cons, List.map_cons, List.map_nil,
            List.dedup_cons_of_not_mem (by simp [hne2]),
            List.dedup_cons_of_not_mem (by simp), List.dedup_nil] at hded
          simp at hded
        have hq1v : q.1 = v := huniq q.1 hq1 (by rw [← hq2, ← hpq, hpv2])
        have hnd : ((p :: q :: tl2).map Prod.fst).Nodup :=
          (hperm.map Prod.fst).nodup_iff.mpr (counter_keys_nodup xs)
        rw [List.map_cons, List.map_cons] at hnd
        exact (List.nodup_cons.mp hnd).1 (by simp [hpv1, hq1v])
    simp only [mode_val]
    rw [if_neg hcond]
    rw [most_common, hsc]
    simp [hpv1]

/-- The `mode` command fails with the ambiguity error when two distinct
values attain the maximum frequency. -/
theorem mode_ambiguous (xs : List ℚ) (v w : ℚ) (hv : v ∈ xs) (hw : w ∈ xs)
    (hne : v ≠ w) (hmax : ∀ u ∈ xs, xs.count u ≤ xs.count v)
    (heq : xs.count w = xs.count v) :
    mode_val xs = .error ambiguousModeError := by
  have hperm := List.mergeSort_perm (counter xs) byCountDesc
  have hpw := sc_pairwise xs
  have hvc : (v, xs.count v) ∈ counter xs := mem_counter.mpr ⟨hv, rfl⟩
  have hwc : (w, xs.count w) ∈ counter xs := mem_counter.mpr ⟨hw, rfl⟩
  have hvs := hperm.mem_iff.mpr hvc
  have hws := hperm.mem_iff.mpr hwc
  cases hsc : (counter xs).mergeSort byCountDesc with
  | nil =>
    rw [hsc] at hvs
    exact absurd hvs (List.not_mem_nil _)
  | cons p tl =>
    cases tl with
    | nil =>
      rw [hsc] at hvs hws
      simp only [List.mem_singleton] at hvs hws
      exact absurd (congrArg Prod.fst (hvs.trans hws.symm)) hne
    | cons q tl2 =>
      rw [hsc] at hvs hws hpw hperm
      have hpc : p ∈ counter xs := hperm.mem_iff.mp (List.mem_cons_self _ _)
      have hqc : q ∈ counter xs := hperm.mem_iff.mp (by simp)
      obtain ⟨hp1, hp2⟩ := mem_counter.mp hpc
      obtain ⟨hq1, hq2⟩ := mem_counter.mp hqc
      have hp2v : p.2 = xs.count v := by
        refine le_antisymm (hp2 ▸ hmax p.1 hp1) ?_
        rcases List.mem_cons.mp hvs with h1 | h1
        · rw [← h1]
        · exact (List.pairwise_cons.mp hpw).1 _ h1
      have hq2v : q.2 = xs.count v := by
        refine le_antisymm (hq2 ▸ hmax q.1 hq1) ?_
        by_cases hvp : (v, xs.count v) = p
        · have hwnp : (w, xs.count w) ≠ p := by
            intro hcontr
            exact hne (congrArg Prod.fst (hvp.trans hcontr.symm))
          have hwtl : (w, xs.count w) ∈ q :: tl2 := by
            rcases List.mem_cons.mp hws with h1 | h1
            · exact absurd h1 hwnp
            · exact h1
          rcases List.mem_cons.mp hwtl with h1 | h1
          · rw [← h1]
            exact le_of_eq heq.symm
          · have h2 := (List.pairwise_cons.mp (List.pairwise_cons.mp hpw).2).1 _ h1
            rw [← heq]
            exact h2
        · have hvtl : (v, xs.count v) ∈ q :: tl2 := by
            rcases List.mem_cons.mp hvs with h1 | h1
            · exact absurd h1 hvp
            · exact h1
          rcases List.mem_cons.mp hvtl with h1 | h1
          · rw [← h1]
          · exact (List.pairwise_cons.mp (List.pairwise_cons.mp hpw).2).1 _ h1
      have hlen : 1 < (counter xs).length := by
        have hslen : (p :: q :: tl2).length = (counter xs).length := by
          rw [← hsc]
          exact List.length_mergeSort _
        rw [← hslen]
        simp
      have hmc : most_common xs 2 = [p, q] := by
        rw [most_common, hsc]
        rfl
      have hded : ((most_common xs 2).map Prod.snd).dedup.length = 1 := by
        rw [hmc, List.map_cons, List.map_cons, List.map_nil, hp2v, hq2v,
          List.dedup_cons_of_mem (by simp), List.dedup_cons_of_not_mem (by simp),
          List.dedup_nil]
        rfl
      simp only [mode_val]
      rw [if_pos ⟨hlen, hded⟩]

/-- C2: for a non-empty stream, `mode` returns the value attaining the
maximum occurrence frequency when exactly one value attains it (any value
of maximal count all of whose frequency-peers are itself), and fails with
the ambiguous-mode error when two or more distinct values share the
maximum frequency; `mode [1,1,2] = 1` and `mode [1,1,2,2]` is the
ambiguity error. -/
theorem C2_mode (xs : List ℚ) :
    (∀ v, v ∈ xs → (∀ w ∈ xs, xs.count w ≤ xs.count v) →
      (∀ w ∈ xs, xs.count w = xs.count v → w = v) →
      mode_val xs = .ok (.vFloat v)) ∧
    (∀ v w, v ∈ xs → w ∈ xs → v ≠ w → (∀ u ∈ xs, xs.count u ≤ xs.count v) →
      xs.count w = xs.count v →
      mode_val xs = .error ambiguousModeError) ∧
    mode_val [1, 1, 2] = .ok (.vFloat 1) ∧
    mode_val [1, 1, 2, 2] = .error ambiguousModeError := by
  refine ⟨fun v hv hmax huniq => mode_unique xs v hv hmax huniq,
    fun v w hv hw hne hmax heq => mode_ambiguous xs v w hv hw hne hmax heq,
    ?_, ?_⟩ <;> with_unfolding_all decide

/-- C2 witness: the two branches applied to the vectors of the spec's own
examples. -/
theorem C2_mode_witness :
    mode_val [1, 1, 2] = .ok (.vFloat 1) ∧
    mode_val [1, 1, 2, 2] = .error ambiguousModeError := by
  constructor
  · exact (C2_mode [1, 1, 2]).1 1 (by with_unfolding_all decide)
      (by with_unfolding_all decide) (by with_unfolding_all decide)
  · exact (C2_mode [1, 1, 2, 2]).2.1 1 2 (by with_unfolding_all decide)
      (by with_unfolding_all decide) (by with_unfolding_all decide)
      (by with_unfolding_all decide) (by with_unfolding_all decide)

end Pcalc
